import Mathlib

/-!
Shallow embedding of the atest test-reference resolution engine
(platform-tools-tradefederation, `atest/` tree): the reference classifier and
dispatcher of `cli_translator.py`, the filter/descriptor flattening of
`test_runners/atest_tf_test_runner.py`, `split_methods` and
`find_parent_module_dir` of `test_finders/test_finder_utils.py`, and the
package finder of `test_finders/module_finder.py`.

Python strings are modelled as Lean `String` (lists of `Char`), Python
`set`/`frozenset` of strings as `Finset String`, and `frozenset` of filter
records as `List TestFilter` enumerations (set union becomes append; every
statement about them is membership-invariant or uses a canonical output).
Filesystem and subprocess effects are passed in as explicit oracle functions.
-/

namespace Atest

/-! ## Python string primitives -/

/-- Occurrence count of a character, as used to state "how many `#` are in
the input". -/
def countChar (c : Char) : List Char → Nat
  | [] => 0
  | x :: xs => (if x = c then 1 else 0) + countChar c xs

/-- Python `sep in s` membership test for a single character. -/
def pyContains (s : String) (c : Char) : Bool :=
  s.data.contains c

/-- Python `s.startswith(c)` for a single character. -/
def pyStartsWith (s : String) (c : Char) : Bool :=
  s.data.head? = some c

/-- Core of Python `s.split(sep)` for a one-character separator: always
returns at least one piece, empty pieces included. -/
def splitChar (sep : Char) : List Char → List (List Char)
  | [] => [[]]
  | c :: rest =>
    if c = sep then [] :: splitChar sep rest
    else
      match splitChar sep rest with
      | [] => [[c]]
      | h :: t => (c :: h) :: t

/-- Python `s.split(sep)` for a one-character separator. -/
def pySplit (s : String) (sep : Char) : List String :=
  (splitChar sep s.data).map fun cs => String.mk cs

/-- Python `s.strip(c)` for a one-character strip set: removes the character
from both ends. -/
def pyStrip (s : String) (c : Char) : String :=
  String.mk ((((s.data.dropWhile (· = c)).reverse).dropWhile (· = c)).reverse)

/-- Keep the characters of `l` up to and including its last slash; `[]` when
there is no slash (the `p[:i]` step of posixpath `dirname`). -/
def keepToLastSlash (l : List Char) : List Char :=
  ((l.reverse.dropWhile (· ≠ '/')).reverse)

/-- Python `os.path.dirname` for POSIX paths: everything before the last
slash, with trailing slashes stripped unless the head is all slashes. -/
def pyDirname (s : String) : String :=
  let head := keepToLastSlash s.data
  if head ≠ [] ∧ head.any (· ≠ '/') then
    String.mk ((head.reverse.dropWhile (· = '/')).reverse)
  else
    String.mk head

/-- Python `os.path.join(a, b)` for two POSIX path pieces. -/
def pyJoin (a b : String) : String :=
  if pyStartsWith b '/' then b
  else if a = "" then b
  else if a.data.getLast? = some '/' then a ++ b
  else a ++ "/" ++ b

/-! ## Reference classifier (`cli_translator.CLITranslator._get_test_reference_types`) -/

/-- The `REFERENCE_TYPE` enum of `cli_translator.py`. -/
inductive REFERENCE_TYPE
  | MODULE
  | CLASS
  | MODULE_CLASS
  | PACKAGE
  | MODULE_PACKAGE
  | FILE_PATH
  | INTEGRATION
  | SUITE
deriving DecidableEq

/-- `CLITranslator._get_test_reference_types`: lexical classification of a
raw test reference into the ordered candidate list. -/
def get_test_reference_types (test_reference : String) : List REFERENCE_TYPE :=
  if pyStartsWith test_reference '.' then
    [REFERENCE_TYPE.FILE_PATH]
  else if pyContains test_reference '/' then
    [REFERENCE_TYPE.FILE_PATH, REFERENCE_TYPE.INTEGRATION, REFERENCE_TYPE.SUITE]
  else if pyContains test_reference ':' then
    if pyContains test_reference '.' then
      [REFERENCE_TYPE.MODULE_CLASS, REFERENCE_TYPE.MODULE_PACKAGE]
    else
      [REFERENCE_TYPE.MODULE_CLASS]
  else if pyContains test_reference '.' then
    [REFERENCE_TYPE.CLASS, REFERENCE_TYPE.PACKAGE]
  else
    [REFERENCE_TYPE.MODULE, REFERENCE_TYPE.CLASS]

/-! ## Error taxonomy

One inductive for the typed exception classes raised by the resolution
engine (`atest_error.py` classes plus `cli_translator.py`'s own classes and
Python's `ValueError`). -/

inductive AErr
  | tooManyMethods
  | methodWithoutClass
  | noTestFound (msg : String)
  | tooManyTestsFound (count : Nat)
  | testWithNoModule
  | valueError
  | unregisteredModule
  | other (tag : String)
deriving DecidableEq

instance {ε α : Type} [DecidableEq ε] [DecidableEq α] : DecidableEq (Except ε α) :=
  fun x y =>
    match x, y with
    | .ok a, .ok b =>
      if h : a = b then isTrue (by rw [h]) else
        isFalse (by intro hc; cases hc; exact h rfl)
    | .error a, .error b =>
      if h : a = b then isTrue (by rw [h]) else
        isFalse (by intro hc; cases hc; exact h rfl)
    | .ok _, .error _ => isFalse (by intro hc; cases hc)
    | .error _, .ok _ => isFalse (by intro hc; cases hc)

/-! ## Filter model (`test_finders/test_info.py`) -/

/-- `test_info.TestFilter` namedtuple: `(class_name, methods)` where
`methods` is a frozenset of method-name strings. -/
structure TestFilter where
  class_name : String
  methods : Finset String
deriving DecidableEq

/-- The `data` dict of a `test_info.TestInfo`, restricted to the two keys
the resolution engine reads and writes (`constants.TI_FILTER` = a frozenset
of `TestFilter`, `constants.TI_REL_CONFIG` = a path string).  A missing
dict key is `none`; the `TI_FILTER` frozenset is enumerated as a list. -/
structure TIData where
  filter : Option (List TestFilter)
  rel_config : Option String
deriving DecidableEq

/-- `test_info.TestInfo`: the test descriptor produced by the finders
(the `suite` field, always `None` in the flattening paths, is omitted). -/
structure TestInfo where
  test_name : String
  test_runner : String
  build_targets : Finset String
  data : TIData
deriving DecidableEq

/-- Python `dict.update`: keys present in `new` overwrite those of `d`. -/
def update_data (d new : TIData) : TIData :=
  { filter := match new.filter with
      | some f => some f
      | none => d.filter
    rel_config := match new.rel_config with
      | some r => some r
      | none => d.rel_config }

/-! ## `test_finder_utils.split_methods` -/

/-- `test_finder_utils.split_methods`: split a user input on `#` into the
base reference and the frozenset of comma-separated method names; more than
one `#` raises `TooManyMethodsError`. -/
def split_methods (user_input : String) : Except AErr (String × Finset String) :=
  match pySplit user_input '#' with
  | [p] => .ok (p, ∅)
  | [p, m] => .ok (p, (pySplit m ',').toFinset)
  | _ => .error .tooManyMethods

/-! ## `atest_utils.sort_and_group`

Modelled from the spec: `atest_utils.py` is not under `src/` (only its
callers are).  §4.4 describes the flattening as "groups by class name" /
"groups by `(test_name, ...)`"; the helper is Python
`itertools.groupby(sorted(iterable, key=key), key=key)`, i.e. one group per
distinct key in ascending key order, each group holding the members with
that key in input order (Python's sort is stable). -/
def charsLeb : List Char → List Char → Bool
  | [], _ => true
  | _ :: _, [] => false
  | a :: as, b :: bs =>
    if a.toNat < b.toNat then true
    else if b.toNat < a.toNat then false
    else charsLeb as bs

/-- Python's string comparison: code-point lexicographic order. -/
def strLeb (a b : String) : Bool :=
  charsLeb a.data b.data

def sort_and_group {α : Type} (l : List α) (key : α → String) :
    List (String × List α) :=
  (((l.map key).insertionSort fun a b => strLeb a b = true).dedup).map fun k =>
    (k, l.filter fun a => key a = k)

/-! ## Filter flattening (`atest_tf_test_runner.AtestTradefedTestRunner`) -/

/-- The per-class loop body of `_flatten_test_filters`: union the method
sets of the group; a member with an empty (whole-class) method set discards
the accumulator and stops (`methods = set(); break`). -/
def merge_methods_loop : List TestFilter → Finset String → Finset String
  | [], acc => acc
  | f :: rest, acc =>
    if f.methods = ∅ then ∅ else merge_methods_loop rest (acc ∪ f.methods)

/-- `AtestTradefedTestRunner._flatten_test_filters`: sort and group the
filters by class name and merge each group's method sets. -/
def flatten_test_filters (filters : List TestFilter) : List TestFilter :=
  (sort_and_group filters (·.class_name)).map fun g =>
    ⟨g.1, merge_methods_loop g.2 ∅⟩

/-- Loop state of the per-module loop in `_flatten_test_infos`. -/
structure FlattenState where
  no_filters : Bool
  filters : List TestFilter
  test_runner : Option String
  build_targets : Finset String
  data : TIData

/-- The per-module loop of `_flatten_test_infos`: merge data dicts
(last-wins), keep the last test runner, union build targets, and union the
filters unless some member asks for a whole-module run (`TI_FILTER` missing
or empty), which discards all filters for the module. -/
def flatten_group_loop : List TestInfo → FlattenState → FlattenState
  | [], st => st
  | i :: rest, st =>
    let data' := update_data st.data i.data
    let runner' := some i.test_runner
    let bt' := st.build_targets ∪ i.build_targets
    match i.data.filter with
    | none => flatten_group_loop rest ⟨true, [], runner', bt', data'⟩
    | some tf =>
      if tf.isEmpty || st.no_filters then
        flatten_group_loop rest ⟨true, [], runner', bt', data'⟩
      else
        flatten_group_loop rest ⟨st.no_filters, st.filters ++ tf, runner', bt', data'⟩

/-- Build the merged descriptor of one module group in
`_flatten_test_infos`. -/
def flatten_group (module : String) (group : List TestInfo) : TestInfo :=
  let st := flatten_group_loop group ⟨false, [], none, ∅, ⟨none, none⟩⟩
  { test_name := module
    test_runner := st.test_runner.getD ""
    build_targets := st.build_targets
    data := { st.data with filter := some (flatten_test_filters st.filters) } }

/-- `AtestTradefedTestRunner._flatten_test_infos`: sort and group the
descriptors by module name and merge each group. -/
def flatten_test_infos (test_infos : List TestInfo) : Finset TestInfo :=
  ((sort_and_group test_infos (·.test_name)).map fun g =>
    flatten_group g.1 g.2).toFinset

/-! ## Finder dispatcher (`cli_translator.CLITranslator`) -/

/-- The `TestInfo` namedtuple of `cli_translator.py`:
`(module_name, rel_module_dir, class_name)`. -/
structure CTTestInfo where
  module_name : String
  rel_module_dir : String
  class_name : Option String
deriving DecidableEq

/-- The three finder methods bound in `CLITranslator.ref_type_to_func_map`.
Each performs filesystem / subprocess work, so they enter the model as
oracle functions; a raised exception is an `.error`. -/
structure Finders where
  find_test_by_module_name : String → Except AErr (Option CTTestInfo)
  find_test_by_class_name : String → Except AErr (Option CTTestInfo)
  find_test_by_path : String → Except AErr (Option CTTestInfo)

/-- `CLITranslator.ref_type_to_func_map`: partial map from reference type to
finder; a lookup miss is the `KeyError` caught in `_get_test_info`. -/
def ref_type_to_func_map (F : Finders) :
    REFERENCE_TYPE → Option (String → Except AErr (Option CTTestInfo))
  | .MODULE => some F.find_test_by_module_name
  | .CLASS => some F.find_test_by_class_name
  | .FILE_PATH => some F.find_test_by_path
  | _ => none

/-- `CLITranslator._get_test_info`: try each candidate reference type in
order; an unbound type is skipped (caught `KeyError`), the first finder
returning a descriptor wins, and exhaustion returns `None`. -/
def get_test_info (F : Finders) (test_name : String) :
    List REFERENCE_TYPE → Except AErr (Option CTTestInfo)
  | [] => .ok none
  | ref_type :: rest =>
    match ref_type_to_func_map F ref_type with
    | none => get_test_info F test_name rest
    | some f =>
      match f test_name with
      | .error e => .error e
      | .ok (some ti) => .ok (some ti)
      | .ok none => get_test_info F test_name rest

/-- `cli_translator.RUN_CMD` instantiated with the module name. -/
def RUN_CMD (module_name : String) : String :=
  "atest_tradefed.sh run commandAndExit template/local_min --template:map test="
    ++ module_name

/-- The per-test loop of `CLITranslator.translate`, with
`_generate_build_targets` passed in as an oracle (`gen`). -/
def translate_loop (F : Finders) (gen : CTTestInfo → Finset String) :
    List String → Finset String → List String →
    Except AErr (Finset String × List String)
  | [], build_targets, run_commands => .ok (build_targets, run_commands)
  | test :: rest, build_targets, run_commands =>
    match get_test_info F test (get_test_reference_types test) with
    | .error e => .error e
    | .ok none => .error (.noTestFound ("No test found for: " ++ test))
    | .ok (some ti) =>
      translate_loop F gen rest (build_targets ∪ gen ti)
        (run_commands ++ [RUN_CMD ti.module_name])

/-- `CLITranslator.translate`. -/
def translate (F : Finders) (gen : CTTestInfo → Finset String)
    (tests : List String) : Except AErr (Finset String × List String) :=
  translate_loop F gen tests ∅ []

/-! ## `CLITranslator._extract_test_dir` -/

def MAX_TEST_CHOICES_FOR_USER_INPUT : Nat := 5

/-- Outcome of `_extract_test_dir`: a raised error, a returned directory, or
an interactive prompt over the listed candidates (the count-between-2-and-5
branch, which blocks on `raw_input`). -/
inductive ExtractDirResult
  | err (e : AErr)
  | dir (d : String)
  | prompt (tests : List String)
deriving DecidableEq

/-- `CLITranslator._extract_test_dir`: split the `find` output into lines;
more than `MAX_TEST_CHOICES_FOR_USER_INPUT` candidates raises
`TooManyTestsFoundError`, a single candidate returns its dirname, anything
else prompts the user. -/
def extract_test_dir (output : String) : ExtractDirResult :=
  let tests := pySplit (pyStrip output '\n') '\n'
  let count := tests.length
  if MAX_TEST_CHOICES_FOR_USER_INPUT < count then
    .err (.tooManyTestsFound count)
  else if count = 1 then
    .dir (pyDirname (tests.headD ""))
  else
    .prompt tests

/-! ## `test_finder_utils.find_parent_module_dir`

Directories are canonical absolute paths, given as component lists from the
filesystem root (`realpath` is the identity: the model is symlink-free);
`renderPath` is the POSIX string form on which `os.path.commonprefix`
operates.  `isDir` and `hasConfig` describe the filesystem: whether a
component list is an existing directory, and whether it contains the
module config file (`file_to_locate`, default `AndroidTest.xml`). -/

def renderPath (p : List String) : String :=
  "/" ++ String.intercalate "/" p

/-- Character-wise longest common prefix: `os.path.commonprefix` on a
two-element list. -/
def lcpChars : List Char → List Char → List Char
  | a :: as, b :: bs => if a = b then a :: lcpChars as bs else []
  | _, _ => []

def commonprefix (a b : String) : String :=
  String.mk (lcpChars a.data b.data)

/-- `test_finder_utils.is_equal_or_sub_dir`: both must be directories and
the character-wise common prefix of the rendered paths must equal the
rendered parent. -/
def is_equal_or_sub_dir (isDir : List String → Bool)
    (sub_dir parent_dir : List String) : Bool :=
  if ¬ isDir sub_dir ∨ ¬ isDir parent_dir then false
  else commonprefix (renderPath sub_dir) (renderPath parent_dir)
    = renderPath parent_dir

/-- Length of the component-wise common prefix of two paths. -/
def countCommonComps : List String → List String → Nat
  | a :: as, b :: bs => if a = b then countCommonComps as bs + 1 else 0
  | _, _ => 0

/-- `os.path.relpath` for canonical absolute component paths. -/
def relpathComps (p start : List String) : String :=
  let c := countCommonComps p start
  let rel := List.replicate (start.length - c) ".." ++ p.drop c
  if rel.isEmpty then "." else String.intercalate "/" rel

/-- Outcome of `find_parent_module_dir`: `valueError` (start not accepted by
`is_equal_or_sub_dir`), a found module dir, `TestWithNoModuleError`, or
non-termination of the `while` loop (`os.path.dirname` of `/` is `/`). -/
inductive FindPMDResult
  | valueError
  | found (rel : String)
  | noModule
  | diverges
deriving DecidableEq

/-- The `while current_dir != root_dir` loop of `find_parent_module_dir`.
One fuel unit per iteration; `start.length + 1` units cover every distinct
directory on the upward chain, so exhausting them means the Python loop
revisits `/` forever. -/
def walk_up (hasConfig : List String → Bool) (root_dir : List String) :
    Nat → List String → FindPMDResult
  | 0, _ => .diverges
  | fuel + 1, current_dir =>
    if current_dir = root_dir then .noModule
    else if hasConfig current_dir then .found (relpathComps current_dir root_dir)
    else walk_up hasConfig root_dir fuel current_dir.dropLast

/-- `test_finder_utils.find_parent_module_dir` (the same logic as
`CLITranslator._find_parent_module_dir`): reject a start dir that fails
`is_equal_or_sub_dir`, then walk upward, strictly below the root, looking
for the module config. -/
def find_parent_module_dir (isDir hasConfig : List String → Bool)
    (root_dir start_dir : List String) : FindPMDResult :=
  if ¬ is_equal_or_sub_dir isDir start_dir root_dir then .valueError
  else walk_up hasConfig root_dir (start_dir.length + 1) start_dir

/-! ## Package finder (`module_finder.ModuleFinder.find_test_by_package_name`) -/

def ATEST_TF_RUNNER : String := "AtestTradefedTestRunner"

def MODULE_CONFIG : String := "AndroidTest.xml"

/-- The collaborators `find_test_by_package_name` calls after its own
argument checks; all touch the filesystem or the module index, so they are
oracles here: `run_find_cmd` (package-dir search), the newer three-argument
`find_parent_module_dir` (returns `None` for auto-generated configs),
`_determine_testable_module`, `_get_module_test_config`, and
`_process_test_info`. -/
structure PkgEnv where
  root_dir : String
  run_find_cmd : String → String → Option String
  find_parent_dir : String → Except AErr (Option String)
  determine_testable_module : String → Except AErr String
  get_module_test_config : String → Option String → Option String
  process_test_info : TestInfo → Except AErr (Option TestInfo)

/-- Tail of `find_test_by_package_name` from the `if not module_name:`
lookup onward. -/
def pkg_finish (env : PkgEnv) (package : String) (module_name : Option String)
    (rel_config : String) : Except AErr (Option TestInfo) :=
  let build : String → Except AErr (Option TestInfo) := fun m =>
    let rc := env.get_module_test_config m (some rel_config)
    env.process_test_info
      ⟨m, ATEST_TF_RUNNER, ∅, ⟨some [⟨package, ∅⟩], rc⟩⟩
  match module_name with
  | some m => build m
  | none =>
    match env.determine_testable_module (pyDirname rel_config) with
    | .error e => .error e
    | .ok m => build m

/-- `ModuleFinder.find_test_by_package_name`: a method filter on a package
reference raises `MethodWithoutClassError` before any search; otherwise
search for the package directory and resolve its owning module. -/
def find_test_by_package_name (env : PkgEnv) (package : String)
    (module_name : Option String) (rel_config : Option String) :
    Except AErr (Option TestInfo) :=
  match split_methods package with
  | .error e => .error e
  | .ok (_, methods) =>
    if methods = ∅ then
      let search_dir := match rel_config with
        | some rc => pyJoin env.root_dir (pyDirname rc)
        | none => env.root_dir
      match env.run_find_cmd search_dir (package.replace "." "/") with
      | none => .ok none
      | some package_path =>
        match rel_config with
        | some rc => pkg_finish env package module_name rc
        | none =>
          match env.find_parent_dir package_path with
          | .error e => .error e
          | .ok none => .ok none
          | .ok (some rel_module_dir) =>
            pkg_finish env package module_name (pyJoin rel_module_dir MODULE_CONFIG)
    else .error .methodWithoutClass

/-! ## Spec-side definition for the filter-flattening refinement claim -/

/-- Filter flattening as the spec words it (§3/§4.4): group by class name;
for each class the merged method set is the union of the members' method
sets, unless some member of that class carries an empty (whole-class)
method set, in which case the merged entry is whole-class. -/
def flatten_test_filters_spec (l : List TestFilter) : Finset TestFilter :=
  (l.map (·.class_name)).toFinset.image fun cn =>
    ⟨cn,
      if ∃ f ∈ l, f.class_name = cn ∧ f.methods = ∅ then ∅
      else ((l.filter fun f => f.class_name = cn).map (·.methods)).foldr (· ∪ ·) ∅⟩

/-! ## Concrete fixtures used by witnesses and counterexamples -/

/-- Finder set whose class finder succeeds and whose other finders find
nothing. -/
def findersClassOnly : Finders :=
  ⟨fun _ => .ok none,
   fun n => .ok (some ⟨n, "d", none⟩),
   fun _ => .ok none⟩

/-- Finder set that finds nothing anywhere. -/
def findersNone : Finders :=
  ⟨fun _ => .ok none, fun _ => .ok none, fun _ => .ok none⟩

/-- Package-finder environment whose searches all succeed. -/
def pkgEnv0 : PkgEnv :=
  ⟨"/r",
   fun _ _ => some "/r/p",
   fun _ => .ok (some "m"),
   fun _ => .ok "Mod",
   fun _ rc => rc,
   fun ti => .ok (some ti)⟩

/-- A filesystem in which `/`, `/a`, `/a/b` and `/a/bc` are directories. -/
def isDirABC : List String → Bool := fun d =>
  d == ([] : List String) || d == ["a"] || d == ["a", "b"] || d == ["a", "bc"]

/-- A filesystem with no `AndroidTest.xml` anywhere. -/
def noConfigFs : List String → Bool := fun _ => false

/-- A filesystem whose only `AndroidTest.xml` lives in `/a/b`. -/
def configAtAB : List String → Bool := fun d => d == ["a", "b"]

/-! # Lemmas -/

/-! ## The split primitive -/

theorem splitChar_ne_nil (sep : Char) (l : List Char) : splitChar sep l ≠ [] := by
  induction l with
  | nil => simp [splitChar]
  | cons c rest ih =>
    simp only [splitChar]
    by_cases h : c = sep
    · simp [h]
    · simp only [if_neg h]
      cases hr : splitChar sep rest with
      | nil => simp
      | cons a b => simp

theorem splitChar_length (sep : Char) (l : List Char) :
    (splitChar sep l).length = countChar sep l + 1 := by
  induction l with
  | nil => simp [splitChar, countChar]
  | cons c rest ih =>
    simp only [splitChar, countChar]
    by_cases h : c = sep
    · simp [h, ih, Nat.add_comm]
    · simp only [if_neg h]
      cases hr : splitChar sep rest with
      | nil => exact absurd hr (splitChar_ne_nil sep rest)
      | cons a b =>
        rw [hr] at ih
        simp at ih
        have hcne : ¬ c = sep := h
        simp [hcne, ih]

theorem splitChar_of_count_zero (sep : Char) (l : List Char)
    (h : countChar sep l = 0) : splitChar sep l = [l] := by
  induction l with
  | nil => simp [splitChar]
  | cons c rest ih =>
    simp only [countChar] at h
    by_cases hc : c = sep
    · simp [hc] at h
    · simp only [if_neg hc, Nat.zero_add] at h
      simp [splitChar, hc, ih h]

theorem splitChar_append (sep : Char) (a b : List Char)
    (ha : countChar sep a = 0) :
    splitChar sep (a ++ sep :: b) = a :: splitChar sep b := by
  induction a with
  | nil => simp [splitChar]
  | cons c a' ih =>
    simp only [countChar] at ha
    by_cases hc : c = sep
    · simp [hc] at ha
    · simp only [if_neg hc, Nat.zero_add] at ha
      simp only [List.cons_append, splitChar, if_neg hc]
      rw [show a' ++ sep :: b = a'.append (sep :: b) from rfl] at ih
      rw [ih ha]

/-! ## Grouping and flattening -/

theorem list_toFinset_dedup {α : Type} [DecidableEq α] (l : List α) :
    l.dedup.toFinset = l.toFinset := by
  apply List.toFinset.ext_iff.mpr
  intro x
  exact List.mem_dedup

theorem list_toFinset_map {α β : Type} [DecidableEq α] [DecidableEq β]
    (f : α → β) (l : List α) : (l.map f).toFinset = l.toFinset.image f := by
  apply Finset.ext
  intro b
  simp

theorem sort_and_group_keys {α : Type} (l : List α) (key : α → String) :
    ((((l.map key).insertionSort fun a b => strLeb a b = true).dedup)).toFinset
      = (l.map key).toFinset := by
  rw [list_toFinset_dedup]
  exact List.toFinset_eq_of_perm _ _ (List.perm_insertionSort _ _)

theorem merge_methods_loop_eq (g : List TestFilter) (acc : Finset String) :
    merge_methods_loop g acc =
      if ∃ f ∈ g, f.methods = ∅ then ∅
      else acc ∪ (g.map (·.methods)).foldr (· ∪ ·) ∅ := by
  induction g generalizing acc with
  | nil => simp [merge_methods_loop]
  | cons f rest ih =>
    simp only [merge_methods_loop]
    by_cases h : f.methods = ∅
    · simp [h]
    · rw [if_neg h, ih]
      by_cases hr : ∃ x ∈ rest, x.methods = ∅
      · simp [h, hr]
      · simp [h, hr, Finset.union_assoc]

theorem flatten_test_filters_toFinset (l : List TestFilter) :
    (flatten_test_filters l).toFinset =
      (l.map (·.class_name)).toFinset.image fun cn =>
        (⟨cn, merge_methods_loop (l.filter fun f => f.class_name = cn) ∅⟩ : TestFilter) := by
  unfold flatten_test_filters sort_and_group
  rw [List.map_map, list_toFinset_map, sort_and_group_keys]
  rfl

theorem dedup_of_all_eq (m : String) :
    ∀ ks : List String, ks ≠ [] → (∀ x ∈ ks, x = m) → ks.dedup = [m] := by
  intro ks
  induction ks with
  | nil => intro h; exact absurd rfl h
  | cons x t ih =>
    intro _ hall
    have hx : x = m := hall x (by simp)
    cases t with
    | nil => simp [hx]
    | cons y t2 =>
      have ht : (y :: t2).dedup = [m] :=
        ih (by simp) fun z hz => hall z (List.mem_cons_of_mem x hz)
      have hy : y = m := hall y (by simp)
      have hmem : x ∈ y :: t2 := by
        rw [hx, hy]
        exact List.mem_cons_self _ _
      rw [List.dedup_cons_of_mem hmem, ht]

theorem sort_and_group_single {α : Type} (l : List α) (key : α → String)
    (m : String) (hne : l ≠ []) (hall : ∀ a ∈ l, key a = m) :
    sort_and_group l key = [(m, l)] := by
  unfold sort_and_group
  have hsorted : ∀ x ∈ (l.map key).insertionSort fun a b => strLeb a b = true, x = m := by
    intro x hx
    have hx' : x ∈ l.map key := (List.perm_insertionSort _ _).mem_iff.mp hx
    obtain ⟨a, ha, rfl⟩ := List.mem_map.mp hx'
    exact hall a ha
  have hne' : ((l.map key).insertionSort fun a b => strLeb a b = true) ≠ [] := by
    intro hcon
    have hlen := (List.perm_insertionSort (fun a b => strLeb a b = true) (l.map key)).length_eq
    rw [hcon] at hlen
    simp at hlen
    exact hne (List.length_eq_zero.mp hlen.symm)
  rw [dedup_of_all_eq m _ hne' hsorted]
  have hfil : (l.filter fun a => key a = m) = l :=
    List.filter_eq_self.mpr fun a ha => by simp [hall a ha]
  simp [hfil]

theorem flatten_group_loop_build_targets :
    ∀ (g : List TestInfo) (st : FlattenState),
      (flatten_group_loop g st).build_targets =
        st.build_targets ∪ (g.map (·.build_targets)).foldr (· ∪ ·) ∅ := by
  intro g
  induction g with
  | nil => intro st; simp [flatten_group_loop]
  | cons i rest ih =>
    intro st
    cases hf : i.data.filter with
    | none =>
      simp only [flatten_group_loop, hf]
      rw [ih]
      simp [Finset.union_assoc]
    | some tf =>
      by_cases hc : (tf.isEmpty || st.no_filters) = true
      · simp only [flatten_group_loop, hf, if_pos hc]
        rw [ih]
        simp [Finset.union_assoc]
      · simp only [flatten_group_loop, hf, if_neg hc]
        rw [ih]
        simp [Finset.union_assoc]

theorem flatten_group_loop_no_filters :
    ∀ (g : List TestInfo) (st : FlattenState),
      ((∃ i ∈ g, i.data.filter = none ∨ i.data.filter = some []) ∨
        (st.no_filters = true ∧ st.filters = [])) →
      (flatten_group_loop g st).filters = [] := by
  intro g
  induction g with
  | nil =>
    intro st h
    rcases h with h | ⟨_, h2⟩
    · simp at h
    · exact h2
  | cons i rest ih =>
    intro st h
    cases hf : i.data.filter with
    | none =>
      simp only [flatten_group_loop, hf]
      exact ih _ (Or.inr ⟨rfl, rfl⟩)
    | some tf =>
      by_cases hc : (tf.isEmpty || st.no_filters) = true
      · simp only [flatten_group_loop, hf, if_pos hc]
        exact ih _ (Or.inr ⟨rfl, rfl⟩)
      · simp only [flatten_group_loop, hf, if_neg hc]
        apply ih
        rcases h with h | ⟨hnf, _⟩
        · rcases h with ⟨j, hj, hjf⟩
          rcases List.mem_cons.mp hj with rfl | hjr
          · exfalso
            rcases hjf with hjn | hje
            · rw [hf] at hjn; exact Option.noConfusion hjn
            · rw [hf] at hje
              have htf : tf = [] := Option.some.inj hje
              apply hc
              simp [htf]
          · exact Or.inl ⟨j, hjr, hjf⟩
        · exfalso
          apply hc
          simp [hnf]

/-! # Claim theorems -/

/-- C2: filter flattening groups filters by class name; each class gets one
merged filter whose method set is the union of the members' method sets,
except that a member with an empty (whole-class) method set forces the
merged method set to be empty; in particular
`flatten({(C,{}),(C,{m1})}) = {(C,{})}` and
`flatten({(C,{m1}),(C,{m2})}) = {(C,{m1,m2})}`. -/
theorem flatten_test_filters_matches_spec :
    (∀ l : List TestFilter,
      (flatten_test_filters l).toFinset = flatten_test_filters_spec l) ∧
    flatten_test_filters [⟨"C", ∅⟩, ⟨"C", {"m1"}⟩] = [⟨"C", ∅⟩] ∧
    flatten_test_filters [⟨"C", {"m1"}⟩, ⟨"C", {"m2"}⟩] = [⟨"C", {"m1", "m2"}⟩] := by
  refine ⟨?_, by decide, by decide⟩
  intro l
  rw [flatten_test_filters_toFinset]
  unfold flatten_test_filters_spec
  apply Finset.image_congr
  intro cn _
  dsimp only
  have hiff : (∃ f ∈ l.filter fun f => f.class_name = cn, f.methods = ∅) ↔
      (∃ f ∈ l, f.class_name = cn ∧ f.methods = ∅) := by
    simp only [List.mem_filter, decide_eq_true_eq]
    constructor
    · rintro ⟨f, ⟨hfl, hcn'⟩, hm⟩
      exact ⟨f, hfl, hcn', hm⟩
    · rintro ⟨f, hfl, hcn', hm⟩
      exact ⟨f, ⟨hfl, hcn'⟩, hm⟩
  have hmerge : merge_methods_loop (l.filter fun f => f.class_name = cn) ∅ =
      if ∃ f ∈ l, f.class_name = cn ∧ f.methods = ∅ then ∅
      else ((l.filter fun f => f.class_name = cn).map (·.methods)).foldr (· ∪ ·) ∅ := by
    rw [merge_methods_loop_eq, if_congr hiff rfl rfl]
    split_ifs with h
    · rfl
    · exact Finset.empty_union _
  rw [hmerge]

/-- C3: when the descriptors of one module are flattened, any member with no
filter (a whole-module run) forces the single merged descriptor to carry no
filter, at whatever position that member sits, and the merged build-target
set is the union of all members' build targets. -/
theorem flatten_test_infos_whole_module_subsumes :
    ∀ (l : List TestInfo) (m : String),
      l ≠ [] → (∀ i ∈ l, i.test_name = m) →
      (∃ i ∈ l, i.data.filter = none ∨ i.data.filter = some []) →
      ∃ ti, flatten_test_infos l = {ti} ∧ ti.test_name = m ∧
        ti.data.filter = some [] ∧
        ti.build_targets = (l.map (·.build_targets)).foldr (· ∪ ·) ∅ := by
  intro l m hne hall hex
  refine ⟨flatten_group m l, ?_, rfl, ?_, ?_⟩
  · unfold flatten_test_infos
    rw [sort_and_group_single l _ m hne fun a ha => hall a ha]
    simp
  · show some (flatten_test_filters
      (flatten_group_loop l ⟨false, [], none, ∅, ⟨none, none⟩⟩).filters) = some []
    rw [flatten_group_loop_no_filters l _ (Or.inl hex)]
    rfl
  · show (flatten_group_loop l ⟨false, [], none, ∅, ⟨none, none⟩⟩).build_targets = _
    rw [flatten_group_loop_build_targets]
    exact Finset.empty_union _

/-- Witness for C3 at a concrete two-descriptor input in which the
whole-module member comes first. -/
theorem flatten_test_infos_whole_module_subsumes_witness :
    ([⟨"M", "r", {"t1"}, ⟨none, none⟩⟩,
      ⟨"M", "r", {"t2"}, ⟨some [⟨"C", {"m1"}⟩], none⟩⟩] : List TestInfo) ≠ [] ∧
    (∀ i ∈ ([⟨"M", "r", {"t1"}, ⟨none, none⟩⟩,
      ⟨"M", "r", {"t2"}, ⟨some [⟨"C", {"m1"}⟩], none⟩⟩] : List TestInfo),
        i.test_name = "M") ∧
    (∃ i ∈ ([⟨"M", "r", {"t1"}, ⟨none, none⟩⟩,
      ⟨"M", "r", {"t2"}, ⟨some [⟨"C", {"m1"}⟩], none⟩⟩] : List TestInfo),
        i.data.filter = none ∨ i.data.filter = some []) ∧
    (∃ ti, flatten_test_infos
        ([⟨"M", "r", {"t1"}, ⟨none, none⟩⟩,
          ⟨"M", "r", {"t2"}, ⟨some [⟨"C", {"m1"}⟩], none⟩⟩] : List TestInfo) = {ti}
      ∧ ti.test_name = "M" ∧ ti.data.filter = some []
      ∧ ti.build_targets =
          (([⟨"M", "r", {"t1"}, ⟨none, none⟩⟩,
            ⟨"M", "r", {"t2"}, ⟨some [⟨"C", {"m1"}⟩], none⟩⟩] : List TestInfo).map
              (·.build_targets)).foldr (· ∪ ·) ∅) :=
  ⟨by decide, by decide, by decide,
    flatten_test_infos_whole_module_subsumes _ "M" (by decide) (by decide) (by decide)⟩

/-- C4 (amended): descriptor flattening groups by `test_name` alone — two
descriptors with the same `test_name` are always merged, whatever their
`test_runner` — and the flattened output never contains two descriptors
with the same `test_name`. -/
theorem flatten_test_infos_groups_by_name :
    ∀ l : List TestInfo,
      (flatten_test_infos l).image (·.test_name) = (l.map (·.test_name)).toFinset ∧
      ∀ a ∈ flatten_test_infos l, ∀ b ∈ flatten_test_infos l,
        a.test_name = b.test_name → a = b := by
  intro l
  have hrepr : flatten_test_infos l =
      ((((l.map (·.test_name)).insertionSort fun a b => strLeb a b = true).dedup).map
        fun k => flatten_group k (l.filter fun a => a.test_name = k)).toFinset := by
    unfold flatten_test_infos sort_and_group
    rw [List.map_map]
    rfl
  constructor
  · rw [hrepr, list_toFinset_map, Finset.image_image]
    have hcomp : ((fun ti : TestInfo => ti.test_name) ∘
        fun k => flatten_group k (l.filter fun a => a.test_name = k)) =
        fun k => k := rfl
    rw [hcomp, Finset.image_id']
    exact sort_and_group_keys l (·.test_name)
  · intro a ha b hb hab
    rw [hrepr, List.mem_toFinset] at ha hb
    obtain ⟨k1, _, rfl⟩ := List.mem_map.mp ha
    obtain ⟨k2, _, rfl⟩ := List.mem_map.mp hb
    have hk : k1 = k2 := hab
    subst hk
    rfl

/-- Witness for C4 at a two-descriptor input sharing a module name but
disagreeing on the runner. -/
theorem flatten_test_infos_groups_by_name_witness :
    ((flatten_test_infos
        [⟨"M", "r1", ∅, ⟨none, none⟩⟩, ⟨"M", "r2", ∅, ⟨none, none⟩⟩]).image
          (·.test_name)
      = (([⟨"M", "r1", ∅, ⟨none, none⟩⟩, ⟨"M", "r2", ∅, ⟨none, none⟩⟩] :
          List TestInfo).map (·.test_name)).toFinset) ∧
    (⟨"M", "r2", ∅, ⟨some [], none⟩⟩ : TestInfo) = ⟨"M", "r2", ∅, ⟨some [], none⟩⟩ :=
  ⟨(flatten_test_infos_groups_by_name _).1,
    (flatten_test_infos_groups_by_name
        [⟨"M", "r1", ∅, ⟨none, none⟩⟩, ⟨"M", "r2", ∅, ⟨none, none⟩⟩]).2
      ⟨"M", "r2", ∅, ⟨some [], none⟩⟩ (by decide)
      ⟨"M", "r2", ∅, ⟨some [], none⟩⟩ (by decide) rfl⟩

/-- C4 counterexample: two descriptors for module `M` with different
execution backends (`r1` vs `r2`) are nevertheless merged into a single
descriptor (which keeps the group's last runner), so merging is not
"if and only if they agree on both test_name and execution backend". -/
theorem flatten_test_infos_merges_across_runners_counterexample :
    flatten_test_infos [⟨"M", "r1", ∅, ⟨none, none⟩⟩, ⟨"M", "r2", ∅, ⟨none, none⟩⟩]
      = {⟨"M", "r2", ∅, ⟨some [], none⟩⟩} ∧
    (flatten_test_infos
      [⟨"M", "r1", ∅, ⟨none, none⟩⟩, ⟨"M", "r2", ∅, ⟨none, none⟩⟩]).card = 1 ∧
    "r1" ≠ "r2" := by decide

/-- C1 counterexample: in `a.b:Class` the suffix `Class` contains no dot,
yet classification returns `[MODULE_CLASS, MODULE_PACKAGE]`, not exactly
`[MODULE_CLASS]` — the code tests `'.' in test_reference` on the whole
string, so a dot that sits only in the prefix adds `MODULE_PACKAGE`. -/
theorem get_test_reference_types_prefix_dot_counterexample :
    pyContains "a.b:Class" ':' = true ∧
    pyStartsWith "a.b:Class" '.' = false ∧
    pyContains "a.b:Class" '/' = false ∧
    pySplit "a.b:Class" ':' = ["a.b", "Class"] ∧
    pyContains "Class" '.' = false ∧
    get_test_reference_types "a.b:Class" ≠ [REFERENCE_TYPE.MODULE_CLASS] ∧
    get_test_reference_types "a.b:Class"
      = [REFERENCE_TYPE.MODULE_CLASS, REFERENCE_TYPE.MODULE_PACKAGE] := by decide

/-- C1 (amended): for a reference containing `:` (no leading `.`, no `/`),
classification yields `[MODULE_CLASS, MODULE_PACKAGE]` exactly when the
whole reference contains a `.` anywhere (prefix or suffix), and exactly
`[MODULE_CLASS]` when the reference contains no `.` at all. -/
theorem get_test_reference_types_colon_amended :
    ∀ s : String, pyContains s ':' = true → pyStartsWith s '.' = false →
      pyContains s '/' = false →
      (pyContains s '.' = true →
        get_test_reference_types s
          = [REFERENCE_TYPE.MODULE_CLASS, REFERENCE_TYPE.MODULE_PACKAGE]) ∧
      (pyContains s '.' = false →
        get_test_reference_types s = [REFERENCE_TYPE.MODULE_CLASS]) := by
  intro s h1 h2 h3
  constructor <;> intro h4 <;> simp [get_test_reference_types, h1, h2, h3, h4]

/-- Witness for C1 (amended) at `a.b:Class` (dot in the prefix only) and at
`M:Class` (no dot at all). -/
theorem get_test_reference_types_colon_amended_witness :
    get_test_reference_types "a.b:Class"
      = [REFERENCE_TYPE.MODULE_CLASS, REFERENCE_TYPE.MODULE_PACKAGE] ∧
    get_test_reference_types "M:Class" = [REFERENCE_TYPE.MODULE_CLASS] :=
  ⟨(get_test_reference_types_colon_amended "a.b:Class"
      (by decide) (by decide) (by decide)).1 (by decide),
    (get_test_reference_types_colon_amended "M:Class"
      (by decide) (by decide) (by decide)).2 (by decide)⟩

/-- C9: the classifier is total — every input receives a non-empty candidate
list — and a bare identifier (no leading `.`, no `/`, `:` or `.`) receives
exactly `[MODULE, CLASS]`. -/
theorem get_test_reference_types_total :
    ∀ s : String,
      get_test_reference_types s ≠ [] ∧
      (pyStartsWith s '.' = false → pyContains s '/' = false →
        pyContains s ':' = false → pyContains s '.' = false →
        get_test_reference_types s = [REFERENCE_TYPE.MODULE, REFERENCE_TYPE.CLASS]) := by
  intro s
  constructor
  · unfold get_test_reference_types
    split_ifs <;> simp
  · intro h1 h2 h3 h4
    simp [get_test_reference_types, h1, h2, h3, h4]

/-- Witness for C9 at the bare identifier `SequentialRWTest`. -/
theorem get_test_reference_types_total_witness :
    get_test_reference_types "SequentialRWTest"
      = [REFERENCE_TYPE.MODULE, REFERENCE_TYPE.CLASS] ∧
    get_test_reference_types "cts/tests" ≠ [] :=
  ⟨(get_test_reference_types_total "SequentialRWTest").2
      (by decide) (by decide) (by decide) (by decide),
    (get_test_reference_types_total "cts/tests").1⟩

theorem string_mk_data (s : String) : String.mk s.data = s := rfl

/-- C5: `split_methods` returns the whole input and an empty method set when
there is no `#`; with exactly one `#` it returns the part before it paired
with the set of comma-separated names after it; with more than one `#` it
raises `TooManyMethodsError`. -/
theorem split_methods_spec :
    ∀ s : String,
      (countChar '#' s.data = 0 → split_methods s = .ok (s, ∅)) ∧
      (∀ a b : String, s.data = a.data ++ '#' :: b.data →
        countChar '#' a.data = 0 → countChar '#' b.data = 0 →
        split_methods s = .ok (a, (pySplit b ',').toFinset)) ∧
      (2 ≤ countChar '#' s.data → split_methods s = .error .tooManyMethods) := by
  intro s
  refine ⟨?_, ?_, ?_⟩
  · intro h
    unfold split_methods pySplit
    rw [splitChar_of_count_zero '#' s.data h]
    simp [string_mk_data]
  · intro a b hs ha hb
    unfold split_methods pySplit
    rw [hs, splitChar_append '#' a.data b.data ha,
      splitChar_of_count_zero '#' b.data hb]
    simp [string_mk_data]
  · intro h2
    unfold split_methods pySplit
    rcases hsp : splitChar '#' s.data with _ | ⟨p, t⟩
    · exact absurd hsp (splitChar_ne_nil _ _)
    · have hl := splitChar_length '#' s.data
      rw [hsp] at hl
      cases t with
      | nil => simp at hl; omega
      | cons q t2 =>
        cases t2 with
        | nil => simp at hl; omega
        | cons r t3 => simp [hsp]

/-- Witness for C5 at `Class#M1,M2` (one `#`, two methods) and `A#M,B#N`
(two `#`). -/
theorem split_methods_spec_witness :
    split_methods "Class#M1,M2" = .ok ("Class", {"M1", "M2"}) ∧
    split_methods "A#M,B#N" = .error .tooManyMethods := by
  constructor
  · have h := (split_methods_spec "Class#M1,M2").2.1 "Class" "M1,M2"
      (by decide) (by decide) (by decide)
    rw [h]
    decide
  · exact (split_methods_spec "A#M,B#N").2.2 (by decide)

/-- C6: the dispatcher consults the finders bound to the candidate kinds in
list order and returns the first non-`None` descriptor — the kinds after the
successful one are irrelevant to the result; if every candidate yields
`None` the lookup returns `None` without raising, and `translate` then
raises `NoTestFoundError` carrying the original reference string. -/
theorem get_test_info_dispatch :
    ∀ (F : Finders) (name : String),
      (∀ (l1 : List REFERENCE_TYPE) (t : REFERENCE_TYPE) (l2 : List REFERENCE_TYPE)
          (f : String → Except AErr (Option CTTestInfo)) (ti : CTTestInfo),
        (∀ rt ∈ l1, ∀ g, ref_type_to_func_map F rt = some g → g name = .ok none) →
        ref_type_to_func_map F t = some f → f name = .ok (some ti) →
        get_test_info F name (l1 ++ t :: l2) = .ok (some ti)) ∧
      (∀ rts : List REFERENCE_TYPE,
        (∀ rt ∈ rts, ∀ g, ref_type_to_func_map F rt = some g → g name = .ok none) →
        get_test_info F name rts = .ok none) ∧
      (∀ gen : CTTestInfo → Finset String,
        get_test_info F name (get_test_reference_types name) = .ok none →
        translate F gen [name]
          = .error (.noTestFound ("No test found for: " ++ name))) := by
  intro F name
  refine ⟨?_, ?_, ?_⟩
  · intro l1 t l2 f ti hnone hmap hf
    induction l1 with
    | nil => simp only [List.nil_append, get_test_info, hmap, hf]
    | cons rt l1' ih =>
      simp only [List.cons_append, get_test_info]
      cases hm : ref_type_to_func_map F rt with
      | none =>
        exact ih fun rt' h' g hg => hnone rt' (List.mem_cons_of_mem _ h') g hg
      | some g =>
        have hg := hnone rt (List.mem_cons_self _ _) g hm
        simp only [hg]
        exact ih fun rt' h' g' hg' => hnone rt' (List.mem_cons_of_mem _ h') g' hg'
  · intro rts hnone
    induction rts with
    | nil => rfl
    | cons rt rest ih =>
      simp only [get_test_info]
      cases hm : ref_type_to_func_map F rt with
      | none =>
        exact ih fun rt' h' g hg => hnone rt' (List.mem_cons_of_mem _ h') g hg
      | some g =>
        have hg := hnone rt (List.mem_cons_self _ _) g hm
        simp only [hg]
        exact ih fun rt' h' g' hg' => hnone rt' (List.mem_cons_of_mem _ h') g' hg'
  · intro gen h
    simp only [translate, translate_loop, h]

/-- Witness for C6: the class finder's hit is returned although an unbound
kind precedes it and another kind follows it; a finder set that finds
nothing makes `translate` raise `NoTestFoundError` with the reference in
the message. -/
theorem get_test_info_dispatch_witness :
    get_test_info findersClassOnly "Foo"
        ([REFERENCE_TYPE.PACKAGE] ++ REFERENCE_TYPE.CLASS :: [REFERENCE_TYPE.FILE_PATH])
      = .ok (some ⟨"Foo", "d", none⟩) ∧
    translate findersNone (fun _ => ∅) ["Bar"]
      = .error (.noTestFound "No test found for: Bar") := by
  constructor
  · exact (get_test_info_dispatch findersClassOnly "Foo").1
      [.PACKAGE] .CLASS [.FILE_PATH]
      findersClassOnly.find_test_by_class_name ⟨"Foo", "d", none⟩
      (by
        intro rt hrt g hg
        have : rt = REFERENCE_TYPE.PACKAGE := by
          cases List.mem_singleton.mp hrt
          rfl
        subst this
        exact Option.noConfusion hg)
      rfl rfl
  · exact (get_test_info_dispatch findersNone "Bar").2.2 (fun _ => ∅) rfl

/-- C10: `_extract_test_dir` raises `TooManyTestsFoundError` when the `find`
output lists more than `MAX_TEST_CHOICES_FOR_USER_INPUT` (5) candidates,
and returns the single candidate's containing directory, without prompting,
when it lists exactly one. -/
theorem extract_test_dir_spec :
    ∀ output : String,
      (MAX_TEST_CHOICES_FOR_USER_INPUT
          < (pySplit (pyStrip output '\n') '\n').length →
        extract_test_dir output
          = .err (.tooManyTestsFound (pySplit (pyStrip output '\n') '\n').length)) ∧
      (∀ t, pySplit (pyStrip output '\n') '\n' = [t] →
        extract_test_dir output = .dir (pyDirname t)) := by
  intro output
  constructor
  · intro h
    simp [extract_test_dir, h]
  · intro t ht
    simp [extract_test_dir, ht, MAX_TEST_CHOICES_FOR_USER_INPUT]

/-- Witness for C10 at a six-line `find` output and a one-line output. -/
theorem extract_test_dir_spec_witness :
    extract_test_dir "a\nb\nc\nd\ne\nf" = .err (.tooManyTestsFound 6) ∧
    extract_test_dir "/r/s/X.java" = .dir "/r/s" := by
  constructor
  · have h := (extract_test_dir_spec "a\nb\nc\nd\ne\nf").1 (by decide)
    rw [h]
    decide
  · have h := (extract_test_dir_spec "/r/s/X.java").2 "/r/s/X.java" (by decide)
    rw [h]
    decide

/-- C8 (code bug): with `/a/b` and `/a/bc` both existing directories and no
`AndroidTest.xml` anywhere, `is_equal_or_sub_dir` accepts start `/a/bc`
against root `/a/b` — `os.path.commonprefix` is character-wise, so `/a/b`
is a string prefix of `/a/bc` — and `find_parent_module_dir` then walks
`/a/bc → /a → / → / → …` forever instead of raising the `ValueError` its
docstring promises for a start directory that is not under the root.  The
remaining conjuncts evaluate the documented behaviors: the nearest config
directory is returned (root exclusive), `TestWithNoModuleError` when none
exists, and `ValueError` when the start is not a directory. -/
theorem find_parent_module_dir_commonprefix_bug :
    is_equal_or_sub_dir isDirABC ["a", "bc"] ["a", "b"] = true ∧
    find_parent_module_dir isDirABC noConfigFs ["a", "b"] ["a", "bc"] = .diverges ∧
    find_parent_module_dir isDirABC noConfigFs ["a", "b"] ["a", "bc"] ≠ .valueError ∧
    find_parent_module_dir (fun _ => true) configAtAB ["a"] ["a", "b", "c"]
      = .found "b" ∧
    find_parent_module_dir (fun _ => true) noConfigFs ["a"] ["a", "b", "c"]
      = .noModule ∧
    find_parent_module_dir (fun _ => false) configAtAB ["a"] ["a", "b", "c"]
      = .valueError := by decide

theorem pkg_finish_ne_mwc (env : PkgEnv) (package : String)
    (mn : Option String) (rconf : String)
    (hdt : ∀ d, env.determine_testable_module d ≠ .error .methodWithoutClass)
    (hpt : ∀ ti, env.process_test_info ti ≠ .error .methodWithoutClass) :
    pkg_finish env package mn rconf ≠ .error .methodWithoutClass := by
  unfold pkg_finish
  cases mn with
  | some m => exact hpt _
  | none =>
    cases hd : env.determine_testable_module (pyDirname rconf) with
    | error e =>
      intro h
      simp only at h
      injection h with he
      subst he
      exact hdt _ hd
    | ok m => exact hpt _

/-- C7: the package finder raises `MethodWithoutClassError` for every
package reference carrying a non-empty method set — for every environment,
i.e. before any search runs — and never raises that error for a package
reference whose method set is empty (given that its collaborators, which in
the source cannot raise that error, do not). -/
theorem find_test_by_package_name_rejects_methods :
    ∀ (env : PkgEnv) (package : String) (mn rc : Option String),
      (∀ (base : String) (ms : Finset String),
        split_methods package = .ok (base, ms) → ms ≠ ∅ →
        find_test_by_package_name env package mn rc = .error .methodWithoutClass) ∧
      (∀ base : String, split_methods package = .ok (base, ∅) →
        (∀ p, env.find_parent_dir p ≠ .error .methodWithoutClass) →
        (∀ d, env.determine_testable_module d ≠ .error .methodWithoutClass) →
        (∀ ti, env.process_test_info ti ≠ .error .methodWithoutClass) →
        find_test_by_package_name env package mn rc ≠ .error .methodWithoutClass) := by
  intro env package mn rc
  constructor
  · intro base ms hsm hne
    unfold find_test_by_package_name
    rw [hsm]
    simp only [if_neg hne]
  · intro base hsm hfp hdt hpt hcon
    unfold find_test_by_package_name at hcon
    rw [hsm] at hcon
    dsimp only at hcon
    rw [if_pos (rfl : (∅ : Finset String) = ∅)] at hcon
    cases rc with
    | some rcv =>
      cases hrf : env.run_find_cmd (pyJoin env.root_dir (pyDirname rcv))
          (package.replace "." "/") with
      | none =>
        rw [hrf] at hcon
        exact Except.noConfusion hcon
      | some pp =>
        rw [hrf] at hcon
        exact pkg_finish_ne_mwc env package mn rcv hdt hpt hcon
    | none =>
      cases hrf : env.run_find_cmd env.root_dir (package.replace "." "/") with
      | none =>
        rw [hrf] at hcon
        exact Except.noConfusion hcon
      | some pp =>
        rw [hrf] at hcon
        dsimp only at hcon
        cases hpd : env.find_parent_dir pp with
        | error e =>
          rw [hpd] at hcon
          dsimp only at hcon
          injection hcon with he
          subst he
          exact hfp pp hpd
        | ok oo =>
          cases oo with
          | none =>
            rw [hpd] at hcon
            exact Except.noConfusion hcon
          | some rmd =>
            rw [hpd] at hcon
            dsimp only at hcon
            exact pkg_finish_ne_mwc env package mn _ hdt hpt hcon

/-- Witness for C7 at `a.b#m1` (method on a package) and `a.b` (no method)
against a concrete, fully succeeding environment. -/
theorem find_test_by_package_name_rejects_methods_witness :
    find_test_by_package_name pkgEnv0 "a.b#m1" none none
      = .error .methodWithoutClass ∧
    find_test_by_package_name pkgEnv0 "a.b" none none
      ≠ .error .methodWithoutClass :=
  ⟨(find_test_by_package_name_rejects_methods pkgEnv0 "a.b#m1" none none).1
      "a.b" {"m1"} (by decide) (by decide),
    (find_test_by_package_name_rejects_methods pkgEnv0 "a.b" none none).2
      "a.b" (by decide)
      (fun p => by simp [pkgEnv0])
      (fun d => by simp [pkgEnv0])
      (fun ti => by simp [pkgEnv0])⟩

end Atest
